import Mathlib

/-!
Verification of the weather-vibes core against its specification.

The definitions below are a shallow embedding of the repository's Python
source:
* `src/server/app/services/data_service.py` (temporal aggregation, nearest
  location, radius query),
* `src/data/pipeline/aggregation.py` (monthly pipeline derived indices),
* `src/server/app/services/scoring_service.py` and
  `src/server/app/core/vibe_engine.py` (vibe scoring).

Floats are idealised as `ℚ` (exact data arithmetic) or `ℝ` (scores built
from `exp`).  Python `None` becomes `Option`, raised exceptions become
`Except`.  Date keys stay strings and are parsed exactly as
`datetime.strptime(s, "%Y%m%d")` accepts an 8-character key.
-/

/-- A `YYYYMMDD` digit block as a natural number. -/
def natOfDigits (cs : List Char) : Nat :=
  cs.foldl (fun acc c => acc * 10 + (c.toNat - 48)) 0

/-- Gregorian leap-year rule used by `datetime`. -/
def isLeapYear (y : Nat) : Bool :=
  y % 4 == 0 && (y % 100 != 0 || y % 400 == 0)

/-- Length of a month, as `datetime` validates day-of-month. -/
def daysInMonth (y m : Nat) : Nat :=
  if m = 2 then (if isLeapYear y then 29 else 28)
  else if m = 4 ∨ m = 6 ∨ m = 9 ∨ m = 11 then 30
  else 31

/-- `datetime.strptime(s, "%Y%m%d")` on an 8-character key: all digits,
4-digit year ≥ 1 (datetime.MINYEAR), 2-digit month in 1..12, 2-digit
calendar-valid day.  The parsed date is encoded as `y*10000 + m*100 + d`,
an encoding on which `datetime` comparisons coincide with `Nat` order. -/
def parseDate (s : String) : Option Nat :=
  let cs := s.data
  if cs.length = 8 ∧ cs.all Char.isDigit then
    let y := natOfDigits (cs.take 4)
    let m := natOfDigits ((cs.drop 4).take 2)
    let d := natOfDigits ((cs.drop 4).drop 2)
    if 1 ≤ y ∧ 1 ≤ m ∧ m ≤ 12 ∧ 1 ≤ d ∧ d ≤ daysInMonth y m then
      some (y * 10000 + m * 100 + d)
    else none
  else none

/-- `np.mean` over a (nonempty) list of exact values. -/
def mean (l : List ℚ) : ℚ := l.sum / l.length

/-- `np.clip` / `Series.clip` on exact values. -/
def clip (x lo hi : ℚ) : ℚ := max lo (min x hi)

/-- The month/year/range filter of `DataService._aggregate_monthly`
(the body of its per-entry `continue` chain). -/
def keep_monthly (k m : Nat) (year sd ed : Option Nat) : Bool :=
  ((k / 100) % 100 == m) &&
  (match year with
   | some y => k / 10000 == y
   | none => true) &&
  (match sd with
   | some s => !(k < s)
   | none => true) &&
  (match ed with
   | some e => !(e < k)
   | none => true)

/-- `DataService._aggregate_monthly`: entries whose key fails to parse are
skipped by the bare `except: continue`; the surviving values are averaged,
`None` when nothing survives. -/
def aggregate_monthly (daily : List (String × ℚ)) (m : Nat)
    (year sd ed : Option Nat) : Option ℚ :=
  let values := daily.filterMap (fun p =>
    match parseDate p.1 with
    | none => none
    | some k => if keep_monthly k m year sd ed then some p.2 else none)
  if values.isEmpty then none else some (mean values)

/-- The date-range filter of `DataService._aggregate_date_range`
(its `if/elif/elif/else` chain). -/
def keep_range (k : Nat) (sd ed : Option Nat) : Bool :=
  match sd, ed with
  | some s, some e => decide (s ≤ k) && decide (k ≤ e)
  | some s, none => !(k < s)
  | none, some e => !(e < k)
  | none, none => true

/-- `DataService._aggregate_date_range`. -/
def aggregate_date_range (daily : List (String × ℚ))
    (sd ed : Option Nat) : Option ℚ :=
  let values := daily.filterMap (fun p =>
    match parseDate p.1 with
    | none => none
    | some k => if keep_range k sd ed then some p.2 else none)
  if values.isEmpty then none else some (mean values)

/-- The `min(all_dates)`/`max(all_dates)` block of
`DataService.get_value_at_point`: `datetime.strptime` raises on the first
malformed key and `min` raises on an empty list, both caught and turned
into "no range"; otherwise the observed min and max date keys. -/
def dateRangeOf (daily : List (String × ℚ)) : Option (Nat × Nat) :=
  match daily.mapM (fun p => parseDate p.1) with
  | none => none
  | some [] => none
  | some (k :: ks) => some (ks.foldl min k, ks.foldl max k)

/-- The two-step clamp of `get_value_at_point`: raise to `min_date` first,
then lower to `max_date`. -/
def clampDate (lo hi v : Nat) : Nat :=
  let v1 := if v < lo then lo else v
  if hi < v1 then hi else v1

/-- The aggregation policy of `DataService.get_value_at_point` after the
daily series has been resolved (its lines 286-349): monthly aggregation
with the out-of-range year filter dropped, else clamped date-range
aggregation falling back to the overall mean when the clamped range is
inverted, else the overall mean. -/
def aggregate (daily : List (String × ℚ))
    (month year sd ed : Option Nat) : Option ℚ :=
  let range := dateRangeOf daily
  match month with
  | some m =>
      let effYear : Option Nat :=
        match range, year with
        | some (lo, hi), some y =>
            if y < lo / 10000 ∨ hi / 10000 < y then none else some y
        | _, _ => year
      aggregate_monthly daily m effYear none none
  | none =>
      if sd.isSome ∨ ed.isSome then
        let cs : Option Nat :=
          match range, sd with
          | some (lo, hi), some s => some (clampDate lo hi s)
          | _, _ => sd
        let ce : Option Nat :=
          match range, ed with
          | some (lo, hi), some e => some (clampDate lo hi e)
          | _, _ => ed
        match cs, ce with
        | some s, some e =>
            if e < s then
              if daily.isEmpty then none else some (mean (daily.map Prod.snd))
            else aggregate_date_range daily (some s) (some e)
        | cs, ce => aggregate_date_range daily cs ce
      else
        if daily.isEmpty then none else some (mean (daily.map Prod.snd))

/-- C1: the spec's invariant says a sentinel fill value (-999) must be
normalized to missing before any aggregation, so no sentinel may
contribute to a value returned by `get_value_at_point`; but the server
loads raw values unnormalized and `_aggregate_monthly` averages the
sentinel into the result: for the series {20200101: -999, 20200102: 10}
and month 1 the aggregate is (-999 + 10) / 2 = -494.5. -/
theorem c1_sentinel_contributes_to_aggregate :
    aggregate [("20200101", -999), ("20200102", 10)]
      (some 1) none none none = some (-989 / 2) := by
  have h : aggregate [("20200101", -999), ("20200102", 10)]
      (some 1) none none none = some (mean [-999, 10]) := rfl
  rw [h]
  norm_num [mean, List.sum_cons, List.sum_nil]

/-- One entry of `DataService.locations_cache` together with the merged
per-parameter daily store that `_load_location_data` produces for it
(`{param_id: {"YYYYMMDD": value}}`). -/
structure Location where
  name : String
  lat : ℚ
  lon : ℚ
  params : List (String × List (String × ℚ))
deriving DecidableEq

/-- The squared planar degree-distance of `_find_nearest_location` and
`get_values_in_radius`; the source compares `np.sqrt` of this quantity,
and `Real.sqrt` is strictly monotone, so comparisons are carried out on
the squares. -/
def dist2 (lat lon : ℚ) (loc : Location) : ℚ :=
  (lat - loc.lat) ^ 2 + (lon - loc.lon) ^ 2

/-- The loop body of `_find_nearest_location`: `distance < min_distance`
(strictly) replaces the running best; the initial minimum is infinity, so
the first location always wins the first comparison. -/
def nearer (lat lon : ℚ) (best : Option Location) (loc : Location) :
    Option Location :=
  match best with
  | none => some loc
  | some b => if dist2 lat lon loc < dist2 lat lon b then some loc else best

/-- `DataService._find_nearest_location`: forward scan keeping the first
strict improvement over the running minimum. -/
def find_nearest_location (idx : List Location) (lat lon : ℚ) :
    Option Location :=
  idx.foldl (nearer lat lon) none

/-- `DataService.get_value_at_point` from nearest-location resolution to
the aggregate: `None` when no location exists or the parameter is absent
at the nearest location. -/
def get_value_at_point (idx : List Location) (pid : String) (lat lon : ℚ)
    (month year sd ed : Option Nat) : Option ℚ :=
  match find_nearest_location idx lat lon with
  | none => none
  | some loc =>
      match loc.params.lookup pid with
      | none => none
      | some daily => aggregate daily month year sd ed

/-- `DataService.get_values_in_radius`.  The source keeps a location when
`np.sqrt(d2) <= radius_km / 111.0`, which is equivalent to
`0 ≤ radius_deg ∧ d2 ≤ radius_deg ^ 2`; `resolution_km` is accepted and
never read. -/
def get_values_in_radius (idx : List Location) (pid : String)
    (clat clon radius_km : ℚ) (month : Option Nat) (resolution_km : ℚ)
    (year sd ed : Option Nat) : List (ℚ × ℚ × ℚ) :=
  let rdeg := radius_km / 111
  idx.filterMap (fun loc =>
    if 0 ≤ rdeg ∧ dist2 clat clon loc ≤ rdeg ^ 2 then
      match get_value_at_point idx pid loc.lat loc.lon month year sd ed with
      | none => none
      | some v => some (loc.lat, loc.lon, v)
    else none)

/-- Round-half-to-even to an integer, the rounding of `Series.round`. -/
def roundHalfEven (x : ℚ) : ℤ :=
  let f := ⌊x⌋
  let r := x - f
  if r < 1 / 2 then f
  else if 1 / 2 < r then f + 1
  else if f % 2 = 0 then f else f + 1

/-- `Series.round(2)`: round half-to-even at two decimals. -/
def round2 (x : ℚ) : ℚ := (roundHalfEven (x * 100) : ℚ) / 100

/-- `_compute_mild_score` from the pipeline, on one monthly temperature:
triangular score from the midpoint of `[omin, omax]`, clipped to `[0, 1]`,
scaled to 100 and rounded to two decimals (the `width if width else 1.0`
guard replaces a zero half-width by 1). -/
def compute_mild_score (t omin omax : ℚ) : ℚ :=
  let midpoint := (omin + omax) / 2
  let width := (omax - omin) / 2
  let diff := |t - midpoint|
  let score := 1 - diff / (if width = 0 then 1 else width)
  round2 (clip score 0 1 * 100)

/-- One monthly cell of the pipeline's `CLOUD_FRACTION` derivation:
`allsky / clearsky.replace(0, nan)` makes the cell NaN (missing) when
either monthly value is NaN or clearsky is zero, and `Series.clip`
preserves NaN. -/
def cloud_fraction_cell (allsky clearsky : Option ℚ) : Option ℚ :=
  match allsky, clearsky with
  | some a, some c => if c = 0 then none else some (clip (1 - a / c) 0 1)
  | _, _ => none

/-- The `CLOUD_FRACTION` column of `compute_monthly_statistics`: cellwise
derivation when both source columns are present, a NaN column otherwise. -/
def cloud_fraction_col (hasCols : Bool)
    (rows : List (Option ℚ × Option ℚ)) : List (Option ℚ) :=
  if hasCols then rows.map (fun r => cloud_fraction_cell r.1 r.2)
  else rows.map (fun _ => none)

/-- `np.clip` on real scores. -/
noncomputable def clipR (x lo hi : ℝ) : ℝ := max lo (min x hi)

/-- `scoring_service.score_low_is_better`. -/
noncomputable def score_low_is_better (value min_val max_val : ℝ) : ℝ :=
  if max_val = min_val then 100
  else (1 - clipR ((value - min_val) / (max_val - min_val)) 0 1) * 100

/-- `scoring_service.score_high_is_better`. -/
noncomputable def score_high_is_better (value min_val max_val : ℝ) : ℝ :=
  if max_val = min_val then 100
  else clipR ((value - min_val) / (max_val - min_val)) 0 1 * 100

/-- The distance to the nearest bound computed by `score_optimal_range`
for an out-of-range value. -/
noncomputable def dist_to_range (value omin omax : ℝ) : ℝ :=
  if value < omin then omin - value else value - omax

/-- `scoring_service.score_optimal_range`: 100 inside the closed range,
Gaussian-style falloff outside, floored at 0 by `max(0.0, score)`. -/
noncomputable def score_optimal_range (value omin omax foff : ℝ) : ℝ :=
  if omin ≤ value ∧ value ≤ omax then 100
  else
    let d := dist_to_range value omin omax
    let w := omax - omin
    max 0 (100 * Real.exp (-((d / (w * foff)) ^ 2)))

/-- `dict.__setitem__` on an insertion-ordered association list: replace
in place when the key exists, append otherwise. -/
def upsert (l : List (String × ℝ)) (k : String) (v : ℝ) :
    List (String × ℝ) :=
  match l with
  | [] => [(k, v)]
  | q :: rest => if q.1 = k then (q.1, v) :: rest else q :: upsert rest k v

/-- `scoring_service.calculate_weighted_score` over the two insertion-
ordered dicts built by the vibe engine. -/
noncomputable def calculate_weighted_score
    (parameter_scores weights : List (String × ℝ)) : ℝ :=
  let total_weight := (weights.map Prod.snd).sum
  if total_weight = 0 then 0
  else
    (weights.map (fun w => ((parameter_scores.lookup w.1).getD 0) * w.2)).sum
      / total_weight

/-- One configured parameter of a standard vibe, flattening the
method-specific keys the engine reads (`min`, `max`, `optimal_min`,
`optimal_max`; `falloff_rate` carries its 2.0 default when the key is
absent from the dictionary). -/
structure ParamConfig where
  id : String
  weight : ℝ
  scoring : String
  minVal : ℝ
  maxVal : ℝ
  optimal_min : ℝ
  optimal_max : ℝ
  falloff_rate : ℝ

/-- A vibe configuration: `config.get("type")` and the parameter list. -/
structure VibeConfig where
  vtype : Option String
  parameters : List ParamConfig

/-- The scoring-method dispatch inside `VibeEngine.calculate_vibe_score`:
unknown method strings raise `ValueError`. -/
noncomputable def score_param (p : ParamConfig) (v : ℝ) : Except String ℝ :=
  if p.scoring = "low_is_better" then
    Except.ok (score_low_is_better v p.minVal p.maxVal)
  else if p.scoring = "high_is_better" then
    Except.ok (score_high_is_better v p.minVal p.maxVal)
  else if p.scoring = "optimal_range" then
    Except.ok (score_optimal_range v p.optimal_min p.optimal_max
      p.falloff_rate)
  else Except.error ("Unknown scoring method: " ++ p.scoring)

/-- The parameter loop of `VibeEngine.calculate_vibe_score`: parameters
without a present value are skipped; the others fill the
`parameter_scores` and `weights` dicts in insertion order. -/
noncomputable def score_loop (ps : List ParamConfig)
    (vals scores weights : List (String × ℝ)) :
    Except String (List (String × ℝ) × List (String × ℝ)) :=
  match ps with
  | [] => Except.ok (scores, weights)
  | p :: rest =>
      match vals.lookup p.id with
      | none => score_loop rest vals scores weights
      | some v =>
          match score_param p v with
          | Except.error e => Except.error e
          | Except.ok sc =>
              score_loop rest vals (upsert scores p.id sc)
                (upsert weights p.id p.weight)

/-- `VibeEngine.calculate_vibe_score`: advisor configurations raise, the
rest run the parameter loop and the weighted average. -/
noncomputable def calculate_vibe_score (cfg : VibeConfig)
    (parameter_values : List (String × ℝ)) : Except String ℝ :=
  if cfg.vtype = some "advisor" then
    Except.error "Advisors use custom logic, not scoring"
  else
    match score_loop cfg.parameters parameter_values [] [] with
    | Except.error e => Except.error e
    | Except.ok sw => Except.ok (calculate_weighted_score sw.1 sw.2)

lemma roundHalfEven_mono {x y : ℚ} (h : x ≤ y) :
    roundHalfEven x ≤ roundHalfEven y := by
  unfold roundHalfEven
  dsimp only
  have hf : ⌊x⌋ ≤ ⌊y⌋ := Int.floor_mono h
  rcases lt_or_eq_of_le hf with hlt | heq
  · have h1 : (if x - ⌊x⌋ < 1 / 2 then ⌊x⌋
        else if 1 / 2 < x - ⌊x⌋ then ⌊x⌋ + 1
        else if ⌊x⌋ % 2 = 0 then ⌊x⌋ else ⌊x⌋ + 1) ≤ ⌊x⌋ + 1 := by
      split_ifs <;> omega
    have h2 : ⌊y⌋ ≤ (if y - ⌊y⌋ < 1 / 2 then ⌊y⌋
        else if 1 / 2 < y - ⌊y⌋ then ⌊y⌋ + 1
        else if ⌊y⌋ % 2 = 0 then ⌊y⌋ else ⌊y⌋ + 1) := by
      split_ifs <;> omega
    omega
  · rw [← heq]
    have hr : x - ⌊x⌋ ≤ y - ⌊x⌋ := by linarith
    split_ifs <;> first | omega | linarith
lemma round2_mono {x y : ℚ} (h : x ≤ y) : round2 x ≤ round2 y := by
  unfold round2
  have h1 : x * 100 ≤ y * 100 := by linarith
  have h2 : (roundHalfEven (x * 100) : ℚ) ≤ (roundHalfEven (y * 100) : ℚ) := by
    exact_mod_cast roundHalfEven_mono h1
  linarith

lemma clip_mono (lo hi a b : ℚ) (h : a ≤ b) : clip a lo hi ≤ clip b lo hi :=
  max_le_max le_rfl (min_le_min h le_rfl)

lemma mild_unfold (t : ℚ) :
    compute_mild_score t 18 25 =
      round2 (clip (1 - |t - 43 / 2| / (7 / 2)) 0 1 * 100) := by
  unfold compute_mild_score
  norm_num

lemma round2_zero : round2 0 = 0 := by
  norm_num [round2, roundHalfEven]

lemma clip_of_neg {s : ℚ} (h : s < 0) : clip s 0 1 = 0 := by
  unfold clip
  rw [min_eq_left (by linarith), max_eq_left (by linarith)]

lemma clip_of_mem {s : ℚ} (h0 : 0 ≤ s) (h1 : s ≤ 1) : clip s 0 1 = s := by
  unfold clip
  rw [min_eq_left h1, max_eq_right h0]

/-- C2: corrected.  The code's `MILD_SCORE` is triangular with its peak at
the midpoint 21.5 °C only: it is 100 at 21.5, decays linearly to 0 at the
bounds 18 and 25 (the half-width 3.5 from the midpoint), is 0 outside, and
is clipped to [0, 100]; the score is monotone in the distance from the
midpoint.  It is NOT 100 on all of [18, 25]. -/
theorem c2_mild_score_triangular :
    compute_mild_score (43 / 2) 18 25 = 100 ∧
    compute_mild_score 18 18 25 = 0 ∧
    compute_mild_score 25 18 25 = 0 ∧
    (∀ t : ℚ, t < 18 ∨ 25 < t → compute_mild_score t 18 25 = 0) ∧
    (∀ t : ℚ, 18 ≤ t → t ≤ 25 →
      compute_mild_score t 18 25 =
        round2 ((1 - |t - 43 / 2| / (7 / 2)) * 100)) ∧
    (∀ t1 t2 : ℚ, |t1 - 43 / 2| ≤ |t2 - 43 / 2| →
      compute_mild_score t2 18 25 ≤ compute_mild_score t1 18 25) := by
  have hin : ∀ t : ℚ, 18 ≤ t → t ≤ 25 →
      compute_mild_score t 18 25 =
        round2 ((1 - |t - 43 / 2| / (7 / 2)) * 100) := by
    intro t h18 h25
    rw [mild_unfold]
    have habs : |t - 43 / 2| ≤ 7 / 2 :=
      abs_le.mpr ⟨by linarith, by linarith⟩
    have h0 : (0 : ℚ) ≤ 1 - |t - 43 / 2| / (7 / 2) := by
      have := div_le_one_of_le₀ habs (by norm_num)
      linarith
    have h1 : 1 - |t - 43 / 2| / (7 / 2) ≤ 1 := by
      have : (0 : ℚ) ≤ |t - 43 / 2| / (7 / 2) :=
        div_nonneg (abs_nonneg _) (by norm_num)
      linarith
    rw [clip_of_mem h0 h1]
  refine ⟨?_, ?_, ?_, ?_, hin, ?_⟩
  · rw [hin (43 / 2) (by norm_num) (by norm_num)]
    norm_num [round2, roundHalfEven]
  · rw [hin 18 le_rfl (by norm_num)]
    rw [show |(18 : ℚ) - 43 / 2| = 7 / 2 by rw [abs_of_nonpos] <;> norm_num]
    norm_num [round2_zero]
  · rw [hin 25 (by norm_num) le_rfl]
    rw [show |(25 : ℚ) - 43 / 2| = 7 / 2 by rw [abs_of_nonneg] <;> norm_num]
    norm_num [round2_zero]
  · intro t ht
    rw [mild_unfold]
    have habs : 7 / 2 < |t - 43 / 2| := by
      rcases ht with h | h
      · calc (7 : ℚ) / 2 < 43 / 2 - t := by linarith
          _ = -(t - 43 / 2) := by ring
          _ ≤ |t - 43 / 2| := neg_le_abs _
      · calc (7 : ℚ) / 2 < t - 43 / 2 := by linarith
          _ ≤ |t - 43 / 2| := le_abs_self _
    have hneg : 1 - |t - 43 / 2| / (7 / 2) < 0 := by
      have : (1 : ℚ) < |t - 43 / 2| / (7 / 2) :=
        (one_lt_div (by norm_num)).mpr habs
      linarith
    rw [clip_of_neg hneg]
    norm_num [round2_zero]
  · intro t1 t2 h
    rw [mild_unfold, mild_unfold]
    have hd : 1 - |t2 - 43 / 2| / (7 / 2) ≤ 1 - |t1 - 43 / 2| / (7 / 2) := by
      have hdiv : |t1 - 43 / 2| / (7 / 2) ≤ |t2 - 43 / 2| / (7 / 2) := by
        gcongr
      linarith
    exact round2_mono (by
      have hc := clip_mono 0 1 _ _ hd
      nlinarith [hc])

/-- C2 witness: the shape theorem applied at 26 (outside), 20 (inside) and
the pair (20, 26) ordered by distance from the midpoint. -/
theorem c2_mild_score_triangular_witness :
    compute_mild_score 26 18 25 = 0 ∧
    compute_mild_score 20 18 25 =
      round2 ((1 - |(20 : ℚ) - 43 / 2| / (7 / 2)) * 100) ∧
    compute_mild_score 26 18 25 ≤ compute_mild_score 20 18 25 :=
  ⟨c2_mild_score_triangular.2.2.2.1 26 (Or.inr (by norm_num)),
   c2_mild_score_triangular.2.2.2.2.1 20 (by norm_num) (by norm_num),
   c2_mild_score_triangular.2.2.2.2.2 20 26 (by
     rw [show (20 : ℚ) - 43 / 2 = -(3 / 2) by norm_num,
       show (26 : ℚ) - 43 / 2 = 9 / 2 by norm_num, abs_neg,
       abs_of_nonneg (by norm_num : (0:ℚ) ≤ 3 / 2),
       abs_of_nonneg (by norm_num : (0:ℚ) ≤ 9 / 2)]
     norm_num)⟩

/-- C2 counterexample: at the in-range temperature 18 °C the claim demands
a score of 100, but the code produces 0. -/
theorem c2_counterexample : compute_mild_score 18 18 25 ≠ 100 := by
  rw [c2_mild_score_triangular.2.1]
  norm_num

/-- C3: corrected.  `CLOUD_FRACTION` equals `clip(1 - allsky/clearsky, 0, 1)`
when both monthly values are present and clearsky is nonzero, but it is
missing (NaN), not 0, whenever clearsky is zero, either monthly value is
missing, or the source columns are absent. -/
theorem c3_cloud_fraction_missing_cases :
    (∀ a c : ℚ, c ≠ 0 →
      cloud_fraction_cell (some a) (some c) = some (clip (1 - a / c) 0 1)) ∧
    (∀ a : ℚ, cloud_fraction_cell (some a) (some 0) = none) ∧
    (∀ o : Option ℚ, cloud_fraction_cell none o = none) ∧
    (∀ o : Option ℚ, cloud_fraction_cell o none = none) ∧
    (∀ rows : List (Option ℚ × Option ℚ),
      cloud_fraction_col false rows = rows.map (fun _ => none)) := by
  refine ⟨?_, ?_, ?_, ?_, ?_⟩
  · intro a c hc
    simp [cloud_fraction_cell, hc]
  · intro a
    simp [cloud_fraction_cell]
  · intro o
    cases o <;> rfl
  · intro o
    cases o <;> rfl
  · intro rows
    rfl

/-- C3 witness: the cell formula at allsky 1, clearsky 2. -/
theorem c3_cloud_fraction_missing_cases_witness :
    cloud_fraction_cell (some 1) (some 2) = some (clip (1 - 1 / 2) 0 1) :=
  c3_cloud_fraction_missing_cases.1 1 2 (by norm_num)

/-- C3 counterexample: with clearsky 0 the claim demands the value 0, but
the code yields a missing cell. -/
theorem c3_counterexample :
    cloud_fraction_cell (some 5) (some 0) = none ∧
    cloud_fraction_cell (some 5) (some 0) ≠ some 0 := by
  constructor
  · simp [cloud_fraction_cell]
  · simp [cloud_fraction_cell]

lemma score_optimal_range_pos (value omin omax foff : ℝ)
    (hout : value < omin ∨ omax < value) :
    score_optimal_range value omin omax foff =
      100 * Real.exp (-((dist_to_range value omin omax /
        ((omax - omin) * foff)) ^ 2)) := by
  unfold score_optimal_range
  rw [if_neg (by rcases hout with h | h <;> intro hc <;> rcases hc with ⟨h1, h2⟩ <;> linarith)]
  exact max_eq_right (by positivity)

/-- C6: for every band `optimalMin < optimalMax` and positive falloff rate,
`score_optimal_range` is 100 on the closed band, and outside the band it
is strictly decreasing in the distance to the nearest bound. -/
theorem c6_score_optimal_range (omin omax foff : ℝ)
    (hlt : omin < omax) (hf : 0 < foff) :
    (∀ v : ℝ, omin ≤ v → v ≤ omax →
      score_optimal_range v omin omax foff = 100) ∧
    (∀ v w : ℝ, (v < omin ∨ omax < v) → (w < omin ∨ omax < w) →
      dist_to_range v omin omax < dist_to_range w omin omax →
      score_optimal_range w omin omax foff <
        score_optimal_range v omin omax foff) := by
  constructor
  · intro v h1 h2
    unfold score_optimal_range
    rw [if_pos ⟨h1, h2⟩]
  · intro v w hv hw hd
    rw [score_optimal_range_pos v omin omax foff hv,
      score_optimal_range_pos w omin omax foff hw]
    have hc : 0 < (omax - omin) * foff := by
      have : 0 < omax - omin := by linarith
      positivity
    have hdv : 0 ≤ dist_to_range v omin omax := by
      unfold dist_to_range
      split_ifs <;> rcases hv with h | h <;> linarith
    have hsq : (dist_to_range v omin omax / ((omax - omin) * foff)) ^ 2 <
        (dist_to_range w omin omax / ((omax - omin) * foff)) ^ 2 := by
      have h1 : dist_to_range v omin omax / ((omax - omin) * foff) <
          dist_to_range w omin omax / ((omax - omin) * foff) := by
        gcongr
      have h0 : 0 ≤ dist_to_range v omin omax / ((omax - omin) * foff) :=
        div_nonneg hdv (le_of_lt hc)
      exact pow_lt_pow_left₀ h1 h0 (by norm_num)
    have := Real.exp_lt_exp.mpr (neg_lt_neg hsq)
    linarith

/-- C6 witness: the band `[0, 1]` with falloff 2, evaluated inside at 1/2
and outside at distances 1 and 2. -/
theorem c6_score_optimal_range_witness :
    score_optimal_range (1 / 2) 0 1 2 = 100 ∧
    score_optimal_range 3 0 1 2 < score_optimal_range 2 0 1 2 :=
  ⟨(c6_score_optimal_range 0 1 2 (by norm_num) (by norm_num)).1 (1 / 2)
      (by norm_num) (by norm_num),
   (c6_score_optimal_range 0 1 2 (by norm_num) (by norm_num)).2 2 3
      (Or.inr (by norm_num)) (Or.inr (by norm_num)) (by
        unfold dist_to_range
        norm_num)⟩

/-- C4: for a daily series whose keys all parse (observed range
`[lo, hi]`), a requested year strictly outside the observed year span is
silently dropped: aggregating with month and year equals aggregating with
the month alone. -/
theorem c4_year_outside_range_dropped (daily : List (String × ℚ))
    (m y lo hi : Nat) (hrange : dateRangeOf daily = some (lo, hi))
    (hy : y < lo / 10000 ∨ hi / 10000 < y) :
    aggregate daily (some m) (some y) none none =
      aggregate daily (some m) none none none := by
  unfold aggregate
  rw [hrange]
  dsimp only
  rw [if_pos hy]

/-- C4 witness: the drop theorem at a two-day January 2024 series with the
out-of-range year 1999. -/
theorem c4_year_outside_range_dropped_witness :
    aggregate [("20240115", 10), ("20240116", 20)]
      (some 1) (some 1999) none none =
    aggregate [("20240115", 10), ("20240116", 20)]
      (some 1) none none none :=
  c4_year_outside_range_dropped [("20240115", 10), ("20240116", 20)]
    1 1999 20240115 20240116 rfl (Or.inl (by norm_num))

/-- C5: for a nonempty series whose keys all parse, a start/end request
whose clamped bounds are inverted degrades to the unweighted mean of the
whole series, the same value the aggregator returns with no time filter. -/
theorem c5_inverted_clamped_range_full_mean (daily : List (String × ℚ))
    (s e lo hi : Nat) (hrange : dateRangeOf daily = some (lo, hi))
    (hclamp : clampDate lo hi e < clampDate lo hi s) :
    aggregate daily none none (some s) (some e) =
      some (mean (daily.map Prod.snd)) ∧
    aggregate daily none none (some s) (some e) =
      aggregate daily none none none none := by
  have hne : daily.isEmpty = false := by
    cases daily with
    | nil =>
        rw [show dateRangeOf [] = none from rfl] at hrange
        cases hrange
    | cons a l => rfl
  have h1 : aggregate daily none none (some s) (some e) =
      some (mean (daily.map Prod.snd)) := by
    unfold aggregate
    rw [hrange]
    dsimp only
    simp only [Option.isSome_some, Option.isSome_none]
    rw [if_pos (by simp)]
    rw [if_pos hclamp, hne]
    rfl
  have h2 : aggregate daily none none none none =
      some (mean (daily.map Prod.snd)) := by
    unfold aggregate
    dsimp only
    simp only [Option.isSome_none]
    rw [if_neg (by simp), hne]
    rfl
  exact ⟨h1, h1.trans h2.symm⟩

/-- C5 witness: a two-day series with requested bounds inside the observed
range but in the wrong order. -/
theorem c5_inverted_clamped_range_full_mean_witness :
    aggregate [("20200110", 10), ("20200120", 20)] none none
      (some 20200118) (some 20200112) =
      some (mean ([("20200110", (10:ℚ)), ("20200120", 20)].map Prod.snd)) ∧
    aggregate [("20200110", 10), ("20200120", 20)] none none
      (some 20200118) (some 20200112) =
      aggregate [("20200110", 10), ("20200120", 20)] none none none none :=
  c5_inverted_clamped_range_full_mean [("20200110", 10), ("20200120", 20)]
    20200118 20200112 20200110 20200120 rfl (by decide)

lemma mean_guard_eq_none (values : List ℚ) :
    (if values.isEmpty then none else some (mean values)) = none ↔
      values = [] := by
  cases values <;> simp

lemma monthly_entry_none (p : String × ℚ) (m : Nat) (year sd ed : Option Nat) :
    (match parseDate p.1 with
      | none => none
      | some k => if keep_monthly k m year sd ed then some p.2 else none) =
      (none : Option ℚ) ↔
    ∀ k, parseDate p.1 = some k → keep_monthly k m year sd ed = false := by
  cases hp : parseDate p.1 with
  | none => simp
  | some k =>
      cases hkeep : keep_monthly k m year sd ed <;> simp [hkeep]

lemma range_entry_none (p : String × ℚ) (sd ed : Option Nat) :
    (match parseDate p.1 with
      | none => none
      | some k => if keep_range k sd ed then some p.2 else none) =
      (none : Option ℚ) ↔
    ∀ k, parseDate p.1 = some k → keep_range k sd ed = false := by
  cases hp : parseDate p.1 with
  | none => simp
  | some k =>
      cases hkeep : keep_range k sd ed <;> simp [hkeep]

/-- C10: the temporal aggregator's filtering passes are total over
malformed entries: an entry whose key does not parse as a `YYYYMMDD` date
is silently skipped by both `_aggregate_monthly` and
`_aggregate_date_range`, and each pass returns `None` exactly when no
parseable entry passes its filter. -/
theorem c10_malformed_entries_skipped (daily : List (String × ℚ))
    (m : Nat) (year sd ed : Option Nat) (s : String) (v : ℚ)
    (hbad : parseDate s = none) :
    aggregate_monthly ((s, v) :: daily) m year sd ed =
      aggregate_monthly daily m year sd ed ∧
    aggregate_date_range ((s, v) :: daily) sd ed =
      aggregate_date_range daily sd ed ∧
    (aggregate_monthly daily m year sd ed = none ↔
      ∀ p ∈ daily, ∀ k, parseDate p.1 = some k →
        keep_monthly k m year sd ed = false) ∧
    (aggregate_date_range daily sd ed = none ↔
      ∀ p ∈ daily, ∀ k, parseDate p.1 = some k →
        keep_range k sd ed = false) := by
  refine ⟨?_, ?_, ?_, ?_⟩
  · unfold aggregate_monthly
    rw [List.filterMap_cons]
    dsimp only
    rw [hbad]
  · unfold aggregate_date_range
    rw [List.filterMap_cons]
    dsimp only
    rw [hbad]
  · unfold aggregate_monthly
    dsimp only
    rw [mean_guard_eq_none, List.filterMap_eq_nil_iff]
    constructor
    · intro h p hp
      exact (monthly_entry_none p m year sd ed).mp (h p hp)
    · intro h p hp
      exact (monthly_entry_none p m year sd ed).mpr (h p hp)
  · unfold aggregate_date_range
    dsimp only
    rw [mean_guard_eq_none, List.filterMap_eq_nil_iff]
    constructor
    · intro h p hp
      exact (range_entry_none p sd ed).mp (h p hp)
    · intro h p hp
      exact (range_entry_none p sd ed).mpr (h p hp)

/-- C10 witness: the skip equation applied to the unparseable key "oops"
prepended to a one-entry January series. -/
theorem c10_malformed_entries_skipped_witness :
    aggregate_monthly [("oops", 5), ("20240110", 10)] 1 none none none =
      aggregate_monthly [("20240110", 10)] 1 none none none :=
  (c10_malformed_entries_skipped [("20240110", 10)] 1 none none none
    "oops" 5 rfl).1

/-- The planar degree-distance `sqrt((lat-locLat)^2 + (lon-locLon)^2)` the
source computes with `np.sqrt`. -/
noncomputable def planar_distance (lat lon : ℚ) (loc : Location) : ℝ :=
  Real.sqrt ((dist2 lat lon loc : ℚ) : ℝ)

lemma dist2_cast_nonneg (lat lon : ℚ) (a : Location) :
    (0 : ℝ) ≤ ((dist2 lat lon a : ℚ) : ℝ) := by
  have h : (0 : ℚ) ≤ dist2 lat lon a := by
    unfold dist2
    positivity
  exact_mod_cast h

lemma planar_distance_le {lat lon : ℚ} {a b : Location}
    (h : dist2 lat lon a ≤ dist2 lat lon b) :
    planar_distance lat lon a ≤ planar_distance lat lon b :=
  Real.sqrt_le_sqrt (by exact_mod_cast h)

lemma planar_distance_lt {lat lon : ℚ} {a b : Location}
    (h : dist2 lat lon a < dist2 lat lon b) :
    planar_distance lat lon a < planar_distance lat lon b :=
  Real.sqrt_lt_sqrt (dist2_cast_nonneg lat lon a) (by exact_mod_cast h)

lemma nearer_foldl_spec (lat lon : ℚ) (l : List Location) :
    ∀ b : Location,
      (l.foldl (nearer lat lon) (some b) = some b ∧
        ∀ x ∈ l, dist2 lat lon b ≤ dist2 lat lon x) ∨
      (∃ i : Fin l.length,
        l.foldl (nearer lat lon) (some b) = some (l.get i) ∧
        dist2 lat lon (l.get i) < dist2 lat lon b ∧
        (∀ j : Fin l.length,
          dist2 lat lon (l.get i) ≤ dist2 lat lon (l.get j)) ∧
        (∀ j : Fin l.length, j.val < i.val →
          dist2 lat lon (l.get i) < dist2 lat lon (l.get j))) := by
  induction l with
  | nil =>
      intro b
      exact Or.inl ⟨rfl, by simp⟩
  | cons x xs ih =>
      intro b
      rw [List.foldl_cons]
      by_cases hx : dist2 lat lon x < dist2 lat lon b
      · have hstep : nearer lat lon (some b) x = some x := by
          show (if dist2 lat lon x < dist2 lat lon b then some x
            else some b : Option Location) = some x
          rw [if_pos hx]
        rw [hstep]
        rcases ih x with ⟨heq, hall⟩ | ⟨i, heq, hlt, hmin, hstrict⟩
        · refine Or.inr ⟨⟨0, Nat.succ_pos _⟩, heq, hx, ?_, ?_⟩
          · intro j
            rcases j with ⟨jv, hj⟩
            cases jv with
            | zero => exact le_refl _
            | succ n => exact hall _ (List.get_mem _ _ _)
          · intro j hj
            exact absurd hj (Nat.not_lt_zero _)
        · refine Or.inr ⟨⟨i.val + 1, Nat.succ_lt_succ i.isLt⟩, heq,
            lt_trans hlt hx, ?_, ?_⟩
          · intro j
            rcases j with ⟨jv, hj⟩
            cases jv with
            | zero => exact le_of_lt hlt
            | succ n => exact hmin ⟨n, Nat.lt_of_succ_lt_succ hj⟩
          · intro j hji
            rcases j with ⟨jv, hj⟩
            cases jv with
            | zero => exact hlt
            | succ n =>
                exact hstrict ⟨n, Nat.lt_of_succ_lt_succ hj⟩
                  (Nat.lt_of_succ_lt_succ hji)
      · have hstep : nearer lat lon (some b) x = some b := by
          show (if dist2 lat lon x < dist2 lat lon b then some x
            else some b : Option Location) = some b
          rw [if_neg hx]
        rw [hstep]
        rcases ih b with ⟨heq, hall⟩ | ⟨i, heq, hlt, hmin, hstrict⟩
        · refine Or.inl ⟨heq, ?_⟩
          intro y hy
          rcases List.mem_cons.mp hy with h | h
          · rw [h]
            exact le_of_not_lt hx
          · exact hall y h
        · refine Or.inr ⟨⟨i.val + 1, Nat.succ_lt_succ i.isLt⟩, heq, hlt, ?_, ?_⟩
          · intro j
            rcases j with ⟨jv, hj⟩
            cases jv with
            | zero => exact le_of_lt (lt_of_lt_of_le hlt (le_of_not_lt hx))
            | succ n => exact hmin ⟨n, Nat.lt_of_succ_lt_succ hj⟩
          · intro j hji
            rcases j with ⟨jv, hj⟩
            cases jv with
            | zero => exact lt_of_lt_of_le hlt (le_of_not_lt hx)
            | succ n =>
                exact hstrict ⟨n, Nat.lt_of_succ_lt_succ hj⟩
                  (Nat.lt_of_succ_lt_succ hji)

/-- C8: `_find_nearest_location` returns `None` exactly when the index is
empty; otherwise it returns a location of minimal planar degree-distance
to the query point, the first such location in iteration order (every
earlier location is strictly farther). -/
theorem c8_nearest_location (idx : List Location) (lat lon : ℚ) :
    (find_nearest_location idx lat lon = none ↔ idx = []) ∧
    (∀ loc : Location, find_nearest_location idx lat lon = some loc →
      ∃ i : Fin idx.length, idx.get i = loc ∧
        (∀ j : Fin idx.length,
          planar_distance lat lon loc ≤ planar_distance lat lon (idx.get j)) ∧
        (∀ j : Fin idx.length, j.val < i.val →
          planar_distance lat lon loc < planar_distance lat lon (idx.get j))) := by
  cases idx with
  | nil =>
      constructor
      · constructor
        · intro _
          rfl
        · intro _
          rfl
      · intro loc h
        cases h
  | cons x xs =>
      have hfnl : find_nearest_location (x :: xs) lat lon =
          xs.foldl (nearer lat lon) (some x) := rfl
      rcases nearer_foldl_spec lat lon xs x with ⟨heq, hall⟩ |
        ⟨i, heq, hlt, hmin, hstrict⟩
      · constructor
        · rw [hfnl, heq]
          constructor
          · intro h
            cases h
          · intro h
            cases h
        · intro loc hl
          rw [hfnl, heq] at hl
          injection hl with hl
          subst hl
          refine ⟨⟨0, Nat.succ_pos _⟩, rfl, ?_, ?_⟩
          · intro j
            rcases j with ⟨jv, hj⟩
            cases jv with
            | zero => exact le_refl _
            | succ n =>
                exact planar_distance_le (hall _ (List.get_mem _ _ _))
          · intro j hj
            exact absurd hj (Nat.not_lt_zero _)
      · constructor
        · rw [hfnl, heq]
          constructor
          · intro h
            cases h
          · intro h
            cases h
        · intro loc hl
          rw [hfnl, heq] at hl
          injection hl with hl
          subst hl
          refine ⟨⟨i.val + 1, Nat.succ_lt_succ i.isLt⟩, rfl, ?_, ?_⟩
          · intro j
            rcases j with ⟨jv, hj⟩
            cases jv with
            | zero => exact planar_distance_le (le_of_lt hlt)
            | succ n =>
                exact planar_distance_le
                  (hmin ⟨n, Nat.lt_of_succ_lt_succ hj⟩)
          · intro j hji
            rcases j with ⟨jv, hj⟩
            cases jv with
            | zero => exact planar_distance_lt hlt
            | succ n =>
                exact planar_distance_lt
                  (hstrict ⟨n, Nat.lt_of_succ_lt_succ hj⟩
                    (Nat.lt_of_succ_lt_succ hji))

/-- C8 witness: on the index `[A at (0,0), B at (3,4)]` queried at the
origin, the theorem produces the minimality certificate for the returned
location `A`. -/
theorem c8_nearest_location_witness :
    ∃ i : Fin ([Location.mk "A" 0 0 [], Location.mk "B" 3 4 []].length),
      [Location.mk "A" 0 0 [], Location.mk "B" 3 4 []].get i =
        Location.mk "A" 0 0 [] ∧
      (∀ j : Fin ([Location.mk "A" 0 0 [], Location.mk "B" 3 4 []].length),
        planar_distance 0 0 (Location.mk "A" 0 0 []) ≤
          planar_distance 0 0
            ([Location.mk "A" 0 0 [], Location.mk "B" 3 4 []].get j)) ∧
      (∀ j : Fin ([Location.mk "A" 0 0 [], Location.mk "B" 3 4 []].length),
        j.val < i.val →
        planar_distance 0 0 (Location.mk "A" 0 0 []) <
          planar_distance 0 0
            ([Location.mk "A" 0 0 [], Location.mk "B" 3 4 []].get j)) :=
  (c8_nearest_location [Location.mk "A" 0 0 [], Location.mk "B" 3 4 []]
    0 0).2 (Location.mk "A" 0 0 [])
    (by norm_num [find_nearest_location, nearer, dist2])

lemma within_radius_iff (q r : ℚ) :
    (0 ≤ r ∧ q ≤ r ^ 2) ↔ Real.sqrt ((q : ℚ) : ℝ) ≤ ((r : ℚ) : ℝ) := by
  rw [Real.sqrt_le_iff]
  constructor
  · rintro ⟨h1, h2⟩
    constructor
    · exact_mod_cast h1
    · exact_mod_cast h2
  · rintro ⟨h1, h2⟩
    constructor
    · exact_mod_cast h1
    · have h3 : ((q : ℚ) : ℝ) ≤ ((r ^ 2 : ℚ) : ℝ) := by
        push_cast
        exact h2
      exact_mod_cast h3

lemma radius_entry_some (idx : List Location) (pid : String)
    (clat clon radius_km : ℚ) (month year sd ed : Option Nat)
    (loc : Location) (la lo v : ℚ) :
    (if 0 ≤ radius_km / 111 ∧
        dist2 clat clon loc ≤ (radius_km / 111) ^ 2 then
      match get_value_at_point idx pid loc.lat loc.lon month year sd ed with
      | none => none
      | some w => some (loc.lat, loc.lon, w)
    else none) = some (la, lo, v) ↔
    (loc.lat = la ∧ loc.lon = lo ∧
      (0 ≤ radius_km / 111 ∧ dist2 clat clon loc ≤ (radius_km / 111) ^ 2) ∧
      get_value_at_point idx pid loc.lat loc.lon month year sd ed =
        some v) := by
  by_cases hcond : 0 ≤ radius_km / 111 ∧
      dist2 clat clon loc ≤ (radius_km / 111) ^ 2
  · rw [if_pos hcond]
    cases hv : get_value_at_point idx pid loc.lat loc.lon month year sd ed with
    | none => simp [hcond]
    | some w =>
        simp [hcond]
  · rw [if_neg hcond]
    simp [hcond]

/-- C7: `get_values_in_radius` is independent of `resolution_km`, and its
result contains exactly the `(lat, lon, value)` triples of indexed
locations whose planar degree-distance from the center is at most
`radius_km / 111` degrees and whose aggregate under the requested time
filter is not `None`. -/
theorem c7_values_in_radius (idx : List Location) (pid : String)
    (clat clon radius_km : ℚ) (month year sd ed : Option Nat) :
    (∀ r1 r2 : ℚ,
      get_values_in_radius idx pid clat clon radius_km month r1 year sd ed =
        get_values_in_radius idx pid clat clon radius_km month r2
          year sd ed) ∧
    (∀ reso la lo v : ℚ,
      (la, lo, v) ∈
          get_values_in_radius idx pid clat clon radius_km month reso
            year sd ed ↔
        ∃ loc ∈ idx, loc.lat = la ∧ loc.lon = lo ∧
          Real.sqrt ((dist2 clat clon loc : ℚ) : ℝ) ≤
            ((radius_km / 111 : ℚ) : ℝ) ∧
          get_value_at_point idx pid la lo month year sd ed = some v) := by
  constructor
  · intro r1 r2
    rfl
  · intro reso la lo v
    unfold get_values_in_radius
    dsimp only
    rw [List.mem_filterMap]
    constructor
    · rintro ⟨loc, hmem, hf⟩
      obtain ⟨hla, hlo, hcond, hv⟩ :=
        (radius_entry_some idx pid clat clon radius_km month year sd ed
          loc la lo v).mp hf
      refine ⟨loc, hmem, hla, hlo, ?_, ?_⟩
      · exact (within_radius_iff _ _).mp hcond
      · rw [← hla, ← hlo]
        exact hv
    · rintro ⟨loc, hmem, hla, hlo, hsqrt, hv⟩
      refine ⟨loc, hmem, ?_⟩
      refine (radius_entry_some idx pid clat clon radius_km month year sd ed
        loc la lo v).mpr ⟨hla, hlo, ?_, ?_⟩
      · exact (within_radius_iff _ _).mpr hsqrt
      · rw [hla, hlo]
        exact hv

/-- The three scoring-method strings `calculate_vibe_score` dispatches on. -/
def validMethod (s : String) : Prop :=
  s = "low_is_better" ∨ s = "high_is_better" ∨ s = "optimal_range"

lemma upsert_of_not_mem (l : List (String × ℝ)) (k : String) (v : ℝ)
    (h : ∀ q ∈ l, q.1 ≠ k) : upsert l k v = l ++ [(k, v)] := by
  induction l with
  | nil => rfl
  | cons q rest ih =>
      have hq : q.1 ≠ k := h q (List.mem_cons_self _ _)
      show (if q.1 = k then (q.1, v) :: rest else q :: upsert rest k v) =
        q :: rest ++ [(k, v)]
      rw [if_neg hq, ih (fun r hr => h r (List.mem_cons_of_mem _ hr))]
      rfl

lemma score_loop_all_absent (ps : List ParamConfig)
    (vals scores weights : List (String × ℝ))
    (h : ∀ p ∈ ps, vals.lookup p.id = none) :
    score_loop ps vals scores weights = Except.ok (scores, weights) := by
  induction ps with
  | nil => rfl
  | cons p rest ih =>
      have hp := h p (List.mem_cons_self _ _)
      show (match vals.lookup p.id with
        | none => score_loop rest vals scores weights
        | some v =>
            match score_param p v with
            | Except.error e => Except.error e
            | Except.ok sc =>
                score_loop rest vals (upsert scores p.id sc)
                  (upsert weights p.id p.weight)) =
        Except.ok (scores, weights)
      rw [hp]
      exact ih (fun q hq => h q (List.mem_cons_of_mem _ hq))

lemma score_param_ok (p : ParamConfig) (v : ℝ) (h : validMethod p.scoring) :
    ∃ sc, score_param p v = Except.ok sc := by
  rcases h with h | h | h
  · exact ⟨score_low_is_better v p.minVal p.maxVal, by simp [score_param, h]⟩
  · exact ⟨score_high_is_better v p.minVal p.maxVal, by simp [score_param, h]⟩
  · exact ⟨score_optimal_range v p.optimal_min p.optimal_max p.falloff_rate,
      by simp [score_param, h]⟩

lemma score_loop_weights (ps : List ParamConfig) (vals : List (String × ℝ)) :
    ∀ scores weights : List (String × ℝ),
      (ps.map ParamConfig.id).Nodup →
      (∀ p ∈ ps, validMethod p.scoring) →
      (∀ p ∈ ps, ∀ q ∈ scores, q.1 ≠ p.id) →
      (∀ p ∈ ps, ∀ q ∈ weights, q.1 ≠ p.id) →
      ∃ scores2,
        score_loop ps vals scores weights = Except.ok (scores2,
          weights ++ (ps.filter (fun p => (vals.lookup p.id).isSome)).map
            (fun p => (p.id, p.weight))) := by
  induction ps with
  | nil =>
      intro scores weights _ _ _ _
      exact ⟨scores, by simp [score_loop]⟩
  | cons p rest ih =>
      intro scores weights hnd hvm hds hdw
      have hnd2 := List.nodup_cons.mp hnd
      cases hv : vals.lookup p.id with
      | none =>
          have hstep : score_loop (p :: rest) vals scores weights =
              score_loop rest vals scores weights := by
            show (match vals.lookup p.id with
              | none => score_loop rest vals scores weights
              | some v =>
                  match score_param p v with
                  | Except.error e => Except.error e
                  | Except.ok sc =>
                      score_loop rest vals (upsert scores p.id sc)
                        (upsert weights p.id p.weight)) =
              score_loop rest vals scores weights
            rw [hv]
          obtain ⟨s2, h2⟩ := ih scores weights hnd2.2
            (fun q hq => hvm q (List.mem_cons_of_mem _ hq))
            (fun q hq => hds q (List.mem_cons_of_mem _ hq))
            (fun q hq => hdw q (List.mem_cons_of_mem _ hq))
          refine ⟨s2, ?_⟩
          rw [hstep, h2, List.filter_cons_of_neg (by rw [hv]; simp)]
      | some v =>
          obtain ⟨sc, hsc⟩ := score_param_ok p v
            (hvm p (List.mem_cons_self _ _))
          have hstep : score_loop (p :: rest) vals scores weights =
              score_loop rest vals (upsert scores p.id sc)
                (upsert weights p.id p.weight) := by
            show (match vals.lookup p.id with
              | none => score_loop rest vals scores weights
              | some v =>
                  match score_param p v with
                  | Except.error e => Except.error e
                  | Except.ok sc2 =>
                      score_loop rest vals (upsert scores p.id sc2)
                        (upsert weights p.id p.weight)) =
              score_loop rest vals (upsert scores p.id sc)
                (upsert weights p.id p.weight)
            rw [hv]
            dsimp only
            rw [hsc]
          have hup_s : upsert scores p.id sc = scores ++ [(p.id, sc)] :=
            upsert_of_not_mem _ _ _
              (fun q hq => hds p (List.mem_cons_self _ _) q hq)
          have hup_w : upsert weights p.id p.weight =
              weights ++ [(p.id, p.weight)] :=
            upsert_of_not_mem _ _ _
              (fun q hq => hdw p (List.mem_cons_self _ _) q hq)
          have hrest_ne : ∀ r ∈ rest, r.id ≠ p.id := by
            intro r hr hre
            exact hnd2.1 (hre ▸ List.mem_map_of_mem ParamConfig.id hr)
          obtain ⟨s2, h2⟩ := ih (scores ++ [(p.id, sc)])
            (weights ++ [(p.id, p.weight)]) hnd2.2
            (fun q hq => hvm q (List.mem_cons_of_mem _ hq))
            (fun q hq r hr => by
              rcases List.mem_append.mp hr with h | h
              · exact hds q (List.mem_cons_of_mem _ hq) r h
              · rcases List.mem_singleton.mp h with rfl
                exact fun he => hrest_ne q hq (by rw [← he]))
            (fun q hq r hr => by
              rcases List.mem_append.mp hr with h | h
              · exact hdw q (List.mem_cons_of_mem _ hq) r h
              · rcases List.mem_singleton.mp h with rfl
                exact fun he => hrest_ne q hq (by rw [← he]))
          refine ⟨s2, ?_⟩
          rw [hstep, hup_s, hup_w, h2,
            List.filter_cons_of_pos (by rw [hv]; rfl)]
          simp [List.append_assoc]

/-- C9: for a standard (non-advisor) vibe configuration, if none of the
configured parameters has a present value, or (for a duplicate-free,
well-formed configuration) the weights of the present parameters sum to
zero, `calculate_vibe_score` returns exactly 0.0 instead of raising or
signalling missing data. -/
theorem c9_vibe_score_zero (cfg : VibeConfig) (vals : List (String × ℝ))
    (hstd : cfg.vtype ≠ some "advisor")
    (h : (∀ p ∈ cfg.parameters, vals.lookup p.id = none) ∨
      ((cfg.parameters.map ParamConfig.id).Nodup ∧
       (∀ p ∈ cfg.parameters, validMethod p.scoring) ∧
       ((cfg.parameters.filter
          (fun p => (vals.lookup p.id).isSome)).map
            ParamConfig.weight).sum = 0)) :
    calculate_vibe_score cfg vals = Except.ok 0 := by
  unfold calculate_vibe_score
  rw [if_neg hstd]
  rcases h with habs | ⟨hnd, hvm, hsum⟩
  · rw [score_loop_all_absent cfg.parameters vals [] [] habs]
    show Except.ok (calculate_weighted_score [] []) = Except.ok 0
    simp [calculate_weighted_score]
  · obtain ⟨s2, h2⟩ := score_loop_weights cfg.parameters vals [] [] hnd hvm
      (by intro p hp q hq; cases hq) (by intro p hp q hq; cases hq)
    rw [h2]
    show Except.ok (calculate_weighted_score s2
      ([] ++ (cfg.parameters.filter
        (fun p => (vals.lookup p.id).isSome)).map
          (fun p => (p.id, p.weight)))) = Except.ok 0
    rw [List.nil_append]
    unfold calculate_weighted_score
    rw [List.map_map]
    have hw : (Prod.snd ∘ fun p : ParamConfig => (p.id, p.weight)) =
        ParamConfig.weight := rfl
    rw [hw, hsum]
    simp

/-- C9 witness: a standard one-parameter vibe scored with no present
parameter values returns 0.0. -/
theorem c9_vibe_score_zero_witness :
    calculate_vibe_score
      (VibeConfig.mk (some "standard")
        [ParamConfig.mk "T2M" 1 "high_is_better" 0 30 0 0 2]) [] =
      Except.ok 0 :=
  c9_vibe_score_zero
    (VibeConfig.mk (some "standard")
      [ParamConfig.mk "T2M" 1 "high_is_better" 0 30 0 0 2]) []
    (by simp) (Or.inl (by intro p hp; rfl))
